import Mathlib

set_option linter.unusedVariables false

/-!
Verification of the Opticks sample plug-in "Robert Edge Detection"
(src/Edge/Robert.cpp) against its natural-language specification.

The development shallowly embeds the plug-in:
* the templated kernel `edgeDetection` (Robert.cpp lines 33-64) becomes a pure
  function over integer-valued rasters; its `static_cast<T>(sqrt(...))` for an
  integral sample type `T` truncates the non-negative double toward zero, which
  on a non-negative integer radicand is the integer square root (`truncSqrt`,
  proved below to coincide with the floor of the real square root);
* `Robert::execute` (lines 104-223) becomes `Robert.execute`, an explicit
  state-passing model of the row scan with an event trace recording the
  progress report, abort poll and write-cursor validity check of every row;
* the abort flag (`isAborted`) and destination accessor validity are modelled
  as functions from the row index (the poll site) to `Bool`, and the result
  raster's backing store starts from an arbitrary `initData` so that
  "this sample was never written" is expressible.
-/

/-- Fuel-driven integer-square-root worker: starting from candidate `acc`,
keep incrementing while the square of the successor still fits below `n`. -/
def sqrtGo (n : ℕ) : ℕ → ℕ → ℕ
  | acc, 0 => acc
  | acc, fuel + 1 => if (acc + 1) * (acc + 1) ≤ n then sqrtGo n (acc + 1) fuel else acc

/-- Truncated (floor) integer square root, kernel-computable.  This models the
value of `static_cast<T>(sqrt(x))` in Robert.cpp line 63 for an integral `T`
and a non-negative integer radicand `x`: C++ float-to-integer conversion
truncates toward zero. -/
def truncSqrt (n : ℕ) : ℕ := sqrtGo n 0 n

theorem sqrtGo_spec (n : ℕ) : ∀ fuel acc, acc * acc ≤ n →
    n < (acc + fuel + 1) * (acc + fuel + 1) →
    sqrtGo n acc fuel * sqrtGo n acc fuel ≤ n ∧
      n < (sqrtGo n acc fuel + 1) * (sqrtGo n acc fuel + 1) := by
  intro fuel
  induction fuel with
  | zero =>
    intro acc h1 h2
    simp only [sqrtGo]
    exact ⟨h1, by simpa using h2⟩
  | succ m ih =>
    intro acc h1 h2
    simp only [sqrtGo]
    by_cases h : (acc + 1) * (acc + 1) ≤ n
    · rw [if_pos h]
      refine ih (acc + 1) h ?_
      have e : acc + 1 + m + 1 = acc + (m + 1) + 1 := by omega
      rw [e]
      exact h2
    · rw [if_neg h]
      exact ⟨h1, by omega⟩

/-- `truncSqrt n` is the largest natural number whose square is at most `n`. -/
theorem truncSqrt_spec (n : ℕ) :
    truncSqrt n * truncSqrt n ≤ n ∧ n < (truncSqrt n + 1) * (truncSqrt n + 1) :=
  sqrtGo_spec n n 0 (by omega) (by nlinarith)

/-- The executable integer square root agrees with the floor of the real
square root, i.e. with truncation of the exact `sqrt` toward zero. -/
theorem truncSqrt_eq_floor (n : ℕ) : (truncSqrt n : ℤ) = ⌊Real.sqrt n⌋ := by
  obtain ⟨h1, h2⟩ := truncSqrt_spec n
  symm
  rw [Int.floor_eq_iff]
  constructor
  · have hs : ((truncSqrt n : ℝ)) = Real.sqrt ((truncSqrt n : ℝ) ^ 2) := by
      rw [Real.sqrt_sq]
      positivity
    push_cast
    rw [hs]
    apply Real.sqrt_le_sqrt
    have hc : ((truncSqrt n * truncSqrt n : ℕ) : ℝ) ≤ (n : ℝ) := by exact_mod_cast h1
    push_cast at hc
    nlinarith
  · have hlt : Real.sqrt n < ((truncSqrt n : ℝ) + 1) := by
      have hs : ((truncSqrt n : ℝ) + 1) = Real.sqrt (((truncSqrt n : ℝ) + 1) ^ 2) := by
        rw [Real.sqrt_sq]
        positivity
      rw [hs]
      apply Real.sqrt_lt_sqrt
      · positivity
      · have hc : ((n : ℕ) : ℝ) < (((truncSqrt n + 1) * (truncSqrt n + 1) : ℕ) : ℝ) := by
          exact_mod_cast h2
        push_cast at hc
        nlinarith
    push_cast
    push_cast at hlt
    linarith

namespace Robert

/-- The Opticks `EncodingType` enumeration restricted to the values the
plug-in can meet; Robert.cpp line 125 names `INT4SCOMPLEX` and `FLT8COMPLEX`. -/
inductive Encoding where
  | INT1SBYTE
  | INT1UBYTE
  | INT2SBYTES
  | INT2UBYTES
  | INT4SBYTES
  | INT4UBYTES
  | INT4SCOMPLEX
  | FLT4BYTES
  | FLT8BYTES
  | FLT8COMPLEX
  deriving DecidableEq

/-- The test of Robert.cpp line 125:
`pDesc->getDataType() == INT4SCOMPLEX || pDesc->getDataType() == FLT8COMPLEX`. -/
def isComplexEncoding : Encoding → Bool
  | .INT4SCOMPLEX => true
  | .FLT8COMPLEX => true
  | _ => false

/-- A raster element: name, geometry, encoding tag and integer-valued sample
storage (only in-bounds positions are ever read by the scan, thanks to the
clamping below). -/
structure RasterElement where
  name : String
  rowCount : Nat
  colCount : Nat
  dataType : Encoding
  data : Nat → Nat → ℤ

/-- `std::max(col - 1, 0)` of Robert.cpp line 36 (computed, never read). -/
def prevColIdx (col : Nat) : Nat := col - 1

/-- `std::max(row - 1, 0)` of Robert.cpp line 37 (computed, never read). -/
def prevRowIdx (row : Nat) : Nat := row - 1

/-- `std::min(col + 1, colSize - 1)` of Robert.cpp line 38. -/
def nextColIdx (col colSize : Nat) : Nat := min (col + 1) (colSize - 1)

/-- `std::min(row + 1, rowSize - 1)` of Robert.cpp line 39. -/
def nextRowIdx (row rowSize : Nat) : Nat := min (row + 1) (rowSize - 1)

/-- `rightVal`: the sample read at `(row, nextCol)`, Robert.cpp lines 42-44. -/
def rightVal (src : RasterElement) (row col : Nat) : ℤ :=
  src.data row (nextColIdx col src.colCount)

/-- `downVal`: the sample read at `(nextRow, col)`, Robert.cpp lines 46-48. -/
def downVal (src : RasterElement) (row col : Nat) : ℤ :=
  src.data (nextRowIdx row src.rowCount) col

/-- `lowerRightVal`: the sample read at `(nextRow, nextCol)`, lines 50-52. -/
def lowerRightVal (src : RasterElement) (row col : Nat) : ℤ :=
  src.data (nextRowIdx row src.rowCount) (nextColIdx col src.colCount)

/-- `midVal`: the sample read at `(row, col)`, Robert.cpp lines 54-56. -/
def midVal (src : RasterElement) (row col : Nat) : ℤ :=
  src.data row col

/-- The kernel of Robert.cpp lines 33-64: gradients
`gx = midVal - lowerRightVal`, `gy = rightVal - downVal` and output sample
`static_cast<T>(sqrt(gx*gx + gy*gy))`, i.e. the truncated square root of the
(non-negative) integer radicand. -/
def edgeDetection (src : RasterElement) (row col : Nat) : ℤ :=
  let gx : ℤ := midVal src row col - lowerRightVal src row col
  let gy : ℤ := rightVal src row col - downVal src row col
  (truncSqrt (gx * gx + gy * gy).toNat : ℤ)

/-- Observable events of one scan, in program order: the progress report of
Robert.cpp line 159, the abort poll of line 161, the destination-cursor
validity check of line 171, and the completion of one row of writes
(lines 181-188). -/
inductive Event where
  | progressReport (row pct : Nat)
  | abortCheck (row : Nat) (value : Bool)
  | validityCheck (row : Nat) (value : Bool)
  | rowWritten (row : Nat)
  deriving DecidableEq

/-- How the row loop of Robert.cpp lines 155-189 can end. -/
inductive ScanResult where
  | aborted (row : Nat)
  | accessorInvalid (row : Nat)
  | completed
  deriving DecidableEq

/-- Post-state of the row loop: how it ended, the destination storage, and
the trace of observable events. -/
structure ScanState where
  result : ScanResult
  out : Nat → Nat → ℤ
  trace : List Event

/-- One pass of the column loop (Robert.cpp lines 181-186): every column of
`row` receives the kernel output; all other storage is untouched. -/
def writeRow (src : RasterElement) (out : Nat → Nat → ℤ) (row : Nat) :
    Nat → Nat → ℤ :=
  fun r c => if r = row ∧ c < src.colCount then edgeDetection src r c else out r c

/-- The row loop of Robert.cpp lines 155-189, driven by the number of rows
still to process (`fuel`).  Each iteration, in program order: report progress
as `row * 100 / rowCount` (line 159), poll the abort flag (line 161; if set the
run ends as `aborted`), check the destination cursor (line 171; if invalid the
run ends as `accessorInvalid`), then write every column of the row. -/
def scanLoop (src : RasterElement) (abortFlag destValid : Nat → Bool)
    (row fuel : Nat) (out : Nat → Nat → ℤ) : ScanState :=
  match fuel with
  | 0 => ⟨.completed, out, []⟩
  | fuel' + 1 =>
    if abortFlag row then
      ⟨.aborted row, out,
        [.progressReport row (row * 100 / src.rowCount), .abortCheck row true]⟩
    else if destValid row then
      let s := scanLoop src abortFlag destValid (row + 1) fuel' (writeRow src out row)
      ⟨s.result, s.out,
        Event.progressReport row (row * 100 / src.rowCount) :: Event.abortCheck row false ::
          Event.validityCheck row true :: Event.rowWritten row :: s.trace⟩
    else
      ⟨.accessorInvalid row, out,
        [.progressReport row (row * 100 / src.rowCount), .abortCheck row false,
          .validityCheck row false]⟩

/-- Inputs of `Robert::execute`: the raster argument, the abort flag and the
destination-cursor validity as observed at each row's poll site, whether the
result raster can be allocated, batch mode, whether view creation succeeds,
and the initial contents of the freshly allocated result storage. -/
structure ExecInput where
  cube : Option RasterElement
  abortFlag : Nat → Bool
  destValid : Nat → Bool
  allocOk : Bool
  isBatch : Bool
  viewOk : Bool
  initData : Nat → Nat → ℤ

/-- The distinguishable outcomes of `Robert::execute`. -/
inductive ExecResult where
  | noCube
  | unsupportedEncoding
  | allocationFailed
  | aborted (row : Nat)
  | accessorInvalid (row : Nat)
  | viewFailed
  | success
  deriving DecidableEq

/-- Post-state of `Robert::execute`: outcome, the result raster element (kept
only on success, matching the `ModelResource` release on line 219), the output
argument stored on line 219, the destination storage contents, and the scan's
event trace. -/
structure ExecState where
  result : ExecResult
  resultCube : Option RasterElement
  outputArg : Option (String × RasterElement)
  outData : Nat → Nat → ℤ
  trace : List Event

/-- The suffix appended to the input's name on Robert.cpp lines 139-140. -/
def resultNameSuffix : String := "_Edge_Detection_Result"

/-- The result raster's name, Robert.cpp lines 139-140. -/
def resultName (src : RasterElement) : String := src.name ++ resultNameSuffix

/-- The output argument declared by `Robert::getOutputSpecification`,
Robert.cpp line 100: `pOutArgList->addArg<RasterElement>("Result", NULL)`. -/
def outputSpecArgName : String := "Result"

/-- The argument name actually used when storing the result, Robert.cpp
line 219: `pOutArgList->setPlugInArgValue("Robert_Edge_Result", ...)`. -/
def executeResultArgName : String := "Robert_Edge_Result"

/-- `Robert::execute`, Robert.cpp lines 104-223: reject a missing cube
(line 113), reject the two complex encodings (line 125), create the result
raster with the input's geometry and encoding (lines 139-140, failing if the
allocation fails), run the row scan (lines 155-189), optionally create a view
(lines 191-212), and on success store the result raster in the output argument
list (line 219). -/
def execute (inp : ExecInput) : ExecState :=
  match inp.cube with
  | none => ⟨.noCube, none, none, inp.initData, []⟩
  | some pCube =>
    if isComplexEncoding pCube.dataType then
      ⟨.unsupportedEncoding, none, none, inp.initData, []⟩
    else if inp.allocOk then
      let s := scanLoop pCube inp.abortFlag inp.destValid 0 pCube.rowCount inp.initData
      let pResultCube : RasterElement :=
        { name := resultName pCube, rowCount := pCube.rowCount,
          colCount := pCube.colCount, dataType := pCube.dataType, data := s.out }
      match s.result with
      | .aborted r => ⟨.aborted r, none, none, s.out, s.trace⟩
      | .accessorInvalid r => ⟨.accessorInvalid r, none, none, s.out, s.trace⟩
      | .completed =>
        if inp.isBatch || inp.viewOk then
          ⟨.success, some pResultCube, some (executeResultArgName, pResultCube),
            s.out, s.trace⟩
        else
          ⟨.viewFailed, none, none, s.out, s.trace⟩
    else
      ⟨.allocationFailed, none, none, inp.initData, []⟩

/-- The 2x2 integer raster `[[10, 20], [30, 40]]` of the specification's
end-to-end example. -/
def src2 : RasterElement where
  name := "cube"
  rowCount := 2
  colCount := 2
  dataType := .INT4SBYTES
  data := fun r c =>
    if r = 0 then (if c = 0 then 10 else 20) else (if c = 0 then 30 else 40)

/-- A nominal run on `src2`: no abort, always-valid cursors, allocation and
view creation succeed. -/
def input2x2 : ExecInput where
  cube := some src2
  abortFlag := fun _ => false
  destValid := fun _ => true
  allocOk := true
  isBatch := true
  viewOk := true
  initData := fun _ _ => 0

/-- Storage the row loop does not reach keeps its previous contents: positions
below the starting row, at or beyond the last processed row, or at or beyond
the column count are untouched. -/
theorem scanLoop_untouched (src : RasterElement) (a v : Nat → Bool) :
    ∀ fuel row out r c, r < row ∨ row + fuel ≤ r ∨ src.colCount ≤ c →
    (scanLoop src a v row fuel out).out r c = out r c := by
  intro fuel
  induction fuel with
  | zero => intro row out r c h; rfl
  | succ m ih =>
    intro row out r c h
    simp only [scanLoop]
    cases ha : a row with
    | true => simp
    | false =>
      cases hv : v row with
      | false => simp
      | true =>
        simp only [Bool.false_eq_true, if_false, if_true]
        rw [ih (row + 1) (writeRow src out row) r c (by omega)]
        have hne : ¬(r = row ∧ c < src.colCount) := by
          rintro ⟨rfl, hc⟩
          omega
        simp [writeRow, hne]

/-- If the row loop runs to completion, every position it was responsible for
holds the kernel output. -/
theorem scanLoop_completed_out (src : RasterElement) (a v : Nat → Bool) :
    ∀ fuel row out, (scanLoop src a v row fuel out).result = .completed →
    ∀ r c, row ≤ r → r < row + fuel → c < src.colCount →
    (scanLoop src a v row fuel out).out r c = edgeDetection src r c := by
  intro fuel
  induction fuel with
  | zero => intro row out _ r c h1 h2 _; omega
  | succ m ih =>
    intro row out hres r c h1 h2 hc
    simp only [scanLoop] at hres ⊢
    cases ha : a row with
    | true => rw [ha] at hres; simp at hres
    | false =>
      rw [ha] at hres
      cases hv : v row with
      | false => rw [hv] at hres; simp at hres
      | true =>
        rw [hv] at hres
        simp only [Bool.false_eq_true, if_false, if_true] at hres ⊢
        rcases Nat.eq_or_lt_of_le h1 with h | h
        · subst h
          rw [scanLoop_untouched src a v m (row + 1) (writeRow src out row) row c (by omega)]
          simp [writeRow, hc]
        · exact ih (row + 1) (writeRow src out row) hres r c h (by omega) hc

/-- If every polled row passes both checks, the loop completes. -/
theorem scanLoop_all_pass (src : RasterElement) (a v : Nat → Bool) :
    ∀ fuel row out,
    (∀ j, row ≤ j → j < row + fuel → a j = false ∧ v j = true) →
    (scanLoop src a v row fuel out).result = .completed := by
  intro fuel
  induction fuel with
  | zero => intro row out _; rfl
  | succ m ih =>
    intro row out hpass
    obtain ⟨ha, hv⟩ := hpass row (le_refl row) (by omega)
    simp only [scanLoop, ha, hv]
    simp only [Bool.false_eq_true, if_false, if_true]
    exact ih (row + 1) (writeRow src out row)
      (fun j h1 h2 => hpass j (by omega) (by omega))

/-- If rows before `k` pass both checks and the abort flag is set at row `k`'s
poll, the loop ends as `aborted k`; rows at or beyond `k` keep their previous
contents; rows before `k` are fully written. -/
theorem scanLoop_abort (src : RasterElement) (a v : Nat → Bool) (k : Nat) :
    ∀ fuel row out,
    (∀ j, row ≤ j → j < k → a j = false ∧ v j = true) →
    row ≤ k → k < row + fuel → a k = true →
    (scanLoop src a v row fuel out).result = .aborted k ∧
    (∀ r c, k ≤ r → (scanLoop src a v row fuel out).out r c = out r c) ∧
    (∀ r c, row ≤ r → r < k → c < src.colCount →
      (scanLoop src a v row fuel out).out r c = edgeDetection src r c) := by
  intro fuel
  induction fuel with
  | zero => intro row out _ h1 h2 _; omega
  | succ m ih =>
    intro row out hpass h1 h2 habort
    rcases Nat.eq_or_lt_of_le h1 with h | h
    · subst h
      refine ⟨by simp [scanLoop, habort], fun r c _ => by simp [scanLoop, habort],
        fun r c hr1 hr2 _ => by omega⟩
    · obtain ⟨ha, hv⟩ := hpass row (le_refl row) h
      simp only [scanLoop, ha, hv]
      simp only [Bool.false_eq_true, if_false, if_true]
      obtain ⟨ih1, ih2, ih3⟩ := ih (row + 1) (writeRow src out row)
        (fun j hj1 hj2 => hpass j (by omega) hj2) h (by omega) habort
      refine ⟨ih1, fun r c hr => ?_, fun r c hr1 hr2 hc => ?_⟩
      · rw [ih2 r c hr]
        have hne : ¬(r = row ∧ c < src.colCount) := by
          rintro ⟨rfl, _⟩
          omega
        simp [writeRow, hne]
      · rcases Nat.eq_or_lt_of_le hr1 with hh | hh
        · subst hh
          rw [scanLoop_untouched src a v m (row + 1) (writeRow src out row) row c (by omega)]
          simp [writeRow, hc]
        · exact ih3 r c hh hr2 hc

/-- If rows before `k` pass both checks, the abort flag is clear at row `k`
but the destination cursor is invalid there, the loop ends as
`accessorInvalid k`. -/
theorem scanLoop_invalid (src : RasterElement) (a v : Nat → Bool) (k : Nat) :
    ∀ fuel row out,
    (∀ j, row ≤ j → j < k → a j = false ∧ v j = true) →
    row ≤ k → k < row + fuel → a k = false → v k = false →
    (scanLoop src a v row fuel out).result = .accessorInvalid k := by
  intro fuel
  induction fuel with
  | zero => intro row out _ h1 h2 _ _; omega
  | succ m ih =>
    intro row out hpass h1 h2 ha hv
    rcases Nat.eq_or_lt_of_le h1 with h | h
    · subst h
      simp [scanLoop, ha, hv]
    · obtain ⟨ha', hv'⟩ := hpass row (le_refl row) h
      simp only [scanLoop, ha', hv']
      simp only [Bool.false_eq_true, if_false, if_true]
      exact ih (row + 1) (writeRow src out row)
        (fun j hj1 hj2 => hpass j (by omega) hj2) h (by omega) ha hv

/-- The event trace does not depend on the destination storage contents. -/
theorem scanLoop_trace_out_indep (src : RasterElement) (a v : Nat → Bool) :
    ∀ fuel row out out1,
    (scanLoop src a v row fuel out).trace = (scanLoop src a v row fuel out1).trace := by
  intro fuel
  induction fuel with
  | zero => intro row out out1; rfl
  | succ m ih =>
    intro row out out1
    simp only [scanLoop]
    cases ha : a row with
    | true => rfl
    | false =>
      cases hv : v row with
      | false => rfl
      | true =>
        simp only [Bool.false_eq_true, if_false, if_true]
        rw [ih (row + 1) (writeRow src out row) (writeRow src out1 row)]

/-- Dropping the events of `i` fully passing rows leaves the trace of the loop
started at row `row + i`. -/
theorem scanLoop_trace_drop (src : RasterElement) (a v : Nat → Bool) :
    ∀ i fuel row out,
    (∀ j, row ≤ j → j < row + i → a j = false ∧ v j = true) →
    i ≤ fuel →
    ((scanLoop src a v row fuel out).trace).drop (4 * i) =
      (scanLoop src a v (row + i) (fuel - i) out).trace := by
  intro i
  induction i with
  | zero => intro fuel row out _ _; simp
  | succ m ih =>
    intro fuel row out hpass hle
    obtain ⟨f, rfl⟩ : ∃ f, fuel = f + 1 := ⟨fuel - 1, by omega⟩
    obtain ⟨ha, hv⟩ := hpass row (le_refl row) (by omega)
    simp only [scanLoop, ha, hv]
    simp only [Bool.false_eq_true, if_false, if_true]
    have e4 : 4 * (m + 1) = (((4 * m + 1) + 1) + 1) + 1 := by omega
    rw [e4]
    simp only [List.drop_succ_cons]
    rw [ih f (row + 1) (writeRow src out row)
      (fun j hj1 hj2 => hpass j (by omega) (by omega)) (by omega)]
    rw [scanLoop_trace_out_indep src a v (f - m) (row + 1 + m) (writeRow src out row) out]
    have e1 : row + 1 + m = row + (m + 1) := by omega
    have e2 : f - m = f + 1 - (m + 1) := by omega
    rw [e1, e2]

/-- The first two trace entries of a row that gets polled are its progress
report and its abort poll; when the abort flag is clear the third entry is the
validity check. -/
theorem scanLoop_trace_head (src : RasterElement) (a v : Nat → Bool)
    (row fuel : Nat) (out : Nat → Nat → ℤ) :
    ((scanLoop src a v row (fuel + 1) out).trace).take 2 =
      [.progressReport row (row * 100 / src.rowCount), .abortCheck row (a row)] ∧
    (a row = false →
      ((scanLoop src a v row (fuel + 1) out).trace).take 3 =
        [.progressReport row (row * 100 / src.rowCount), .abortCheck row false,
          .validityCheck row (v row)]) := by
  cases ha : a row with
  | true => simp [scanLoop, ha]
  | false =>
    cases hv : v row with
    | false => simp [scanLoop, ha, hv]
    | true => simp [scanLoop, ha, hv]

/-- With a cube present, a supported encoding and a successful allocation,
`execute` is the scan: trace and storage are the scan's, and the outcome is
determined by the scan's outcome. -/
theorem execute_reduce (inp : ExecInput) (src : RasterElement)
    (h : inp.cube = some src) (hcplx : isComplexEncoding src.dataType = false)
    (halloc : inp.allocOk = true) :
    (execute inp).trace =
      (scanLoop src inp.abortFlag inp.destValid 0 src.rowCount inp.initData).trace ∧
    (execute inp).outData =
      (scanLoop src inp.abortFlag inp.destValid 0 src.rowCount inp.initData).out ∧
    (∀ k, (scanLoop src inp.abortFlag inp.destValid 0 src.rowCount inp.initData).result
        = .aborted k → (execute inp).result = .aborted k) ∧
    (∀ k, (scanLoop src inp.abortFlag inp.destValid 0 src.rowCount inp.initData).result
        = .accessorInvalid k → (execute inp).result = .accessorInvalid k) ∧
    ((scanLoop src inp.abortFlag inp.destValid 0 src.rowCount inp.initData).result
        = .completed → (inp.isBatch || inp.viewOk) = true →
      (execute inp).result = .success) := by
  rcases hs : (scanLoop src inp.abortFlag inp.destValid 0 src.rowCount inp.initData).result
    with k | k | _
  · refine ⟨?_, ?_, ?_, ?_, ?_⟩ <;> simp [execute, h, hcplx, halloc, hs]
  · refine ⟨?_, ?_, ?_, ?_, ?_⟩ <;> simp [execute, h, hcplx, halloc, hs]
  · cases hb : (inp.isBatch || inp.viewOk) <;>
      refine ⟨?_, ?_, ?_, ?_, ?_⟩ <;> simp [execute, h, hcplx, halloc, hs, hb]

/-- Inversion of a successful run: the encoding was supported, the allocation
succeeded, the scan completed, and the result raster was built from the scan's
storage with the input's geometry and encoding, stored in the output argument
list under `executeResultArgName`. -/
theorem execute_success_inv (inp : ExecInput) (src : RasterElement)
    (h : inp.cube = some src) (hres : (execute inp).result = .success) :
    isComplexEncoding src.dataType = false ∧ inp.allocOk = true ∧
    (scanLoop src inp.abortFlag inp.destValid 0 src.rowCount inp.initData).result
      = .completed ∧
    (execute inp).outData =
      (scanLoop src inp.abortFlag inp.destValid 0 src.rowCount inp.initData).out ∧
    (execute inp).resultCube = some
      { name := resultName src, rowCount := src.rowCount, colCount := src.colCount,
        dataType := src.dataType,
        data := (scanLoop src inp.abortFlag inp.destValid 0 src.rowCount inp.initData).out } ∧
    (execute inp).outputArg = some (executeResultArgName,
      { name := resultName src, rowCount := src.rowCount, colCount := src.colCount,
        dataType := src.dataType,
        data := (scanLoop src inp.abortFlag inp.destValid 0 src.rowCount inp.initData).out }) := by
  cases hcplx : isComplexEncoding src.dataType with
  | true => exfalso; simp [execute, h, hcplx] at hres
  | false =>
    cases halloc : inp.allocOk with
    | false => exfalso; simp [execute, h, hcplx, halloc] at hres
    | true =>
      rcases hs : (scanLoop src inp.abortFlag inp.destValid 0 src.rowCount inp.initData).result
        with k | k | _
      · exfalso; simp [execute, h, hcplx, halloc, hs] at hres
      · exfalso; simp [execute, h, hcplx, halloc, hs] at hres
      · cases hb : (inp.isBatch || inp.viewOk) with
        | false => exfalso; simp [execute, h, hcplx, halloc, hs, hb] at hres
        | true =>
          refine ⟨rfl, rfl, rfl, ?_, ?_, ?_⟩ <;>
            simp [execute, h, hcplx, halloc, hs, hb, resultName]

/-- A run on `src2` whose abort flag is set from row 1 on. -/
def inputAbort : ExecInput where
  cube := some src2
  abortFlag := fun r => decide (1 ≤ r)
  destValid := fun _ => true
  allocOk := true
  isBatch := true
  viewOk := true
  initData := fun _ _ => 0

/-- A variant of `src2` that agrees with it on the four samples the kernel
reads for pixel `(0,0)` but differs everywhere outside the 2x2 grid. -/
def src2b : RasterElement where
  name := "other"
  rowCount := 2
  colCount := 2
  dataType := .INT4SBYTES
  data := fun r c =>
    if r = 0 ∧ c = 0 then 10
    else if r = 0 ∧ c = 1 then 20
    else if r = 1 ∧ c = 0 then 30
    else if r = 1 ∧ c = 1 then 40
    else 999

/-- Claim C2 (corrected): on the 2x2 raster `[[10,20],[30,40]]` the run
succeeds, but the output at `(0,0)` is 31, not the claimed 32 (the cast
truncates `sqrt(1000) = 31.62...`), and the output at `(1,0)` is 14, not the
claimed 0 (`gx = 30-40`, `gy = 40-30`, `sqrt(200) = 14.14...`). -/
theorem C2_counterexample :
    (execute input2x2).result = .success ∧
    (execute input2x2).outData 0 0 ≠ 32 ∧
    (execute input2x2).outData 1 0 ≠ 0 := by decide

/-- Claim C2 (amended): the 2x2 integer raster `[[10,20],[30,40]]` produces a
successful run with output raster `[[31,28],[14,0]]`. -/
theorem C2_amended :
    (execute input2x2).result = .success ∧
    (execute input2x2).outData 0 0 = 31 ∧ (execute input2x2).outData 0 1 = 28 ∧
    (execute input2x2).outData 1 0 = 14 ∧ (execute input2x2).outData 1 1 = 0 := by
  decide

/-- Claim C7 (counterexample): on a concrete nominal run the first event of
row 0 is the progress report, not the cancellation check, so the claimed
order (cancellation check first, then validity check, then progress report)
is false; the code reports progress first. -/
theorem C7_counterexample :
    (execute input2x2).trace =
      [.progressReport 0 0, .abortCheck 0 false, .validityCheck 0 true, .rowWritten 0,
       .progressReport 1 50, .abortCheck 1 false, .validityCheck 1 true, .rowWritten 1] ∧
    ((execute input2x2).trace).head? = some (.progressReport 0 0) ∧
    Event.progressReport 0 0 ≠ Event.abortCheck 0 false ∧
    Event.progressReport 0 0 ≠ Event.abortCheck 0 true := by decide

/-- Claim C9 (code bug): on a successful run the result raster is stored in
the output argument list under `"Robert_Edge_Result"` (Robert.cpp line 219),
which differs from the output argument name `"Result"` declared by
`Robert::getOutputSpecification` (line 100), so the stored value is not
retrievable under the declared output argument. -/
theorem C9_thm :
    (execute input2x2).result = .success ∧
    ((execute input2x2).outputArg).map Prod.fst = some executeResultArgName ∧
    executeResultArgName ≠ outputSpecArgName := by
  refine ⟨by decide, rfl, by decide⟩

/-- Claim C3 (confirmed): for a pixel in the last column the `right` and
`lower-right` neighbor samples are read at column `colCount - 1` itself, and
for a pixel in the last row the `down` and `lower-right` neighbors are read at
row `rowCount - 1`; the clamped coordinates stay in bounds. -/
theorem C3_thm (src : RasterElement) (row col rowA colA : Nat)
    (hc : 0 < src.colCount) (hr : 0 < src.rowCount)
    (hcol : col = src.colCount - 1) (hrowA : rowA = src.rowCount - 1) :
    nextColIdx col src.colCount = src.colCount - 1 ∧
    rightVal src row col = src.data row (src.colCount - 1) ∧
    lowerRightVal src row col =
      src.data (nextRowIdx row src.rowCount) (src.colCount - 1) ∧
    nextRowIdx rowA src.rowCount = src.rowCount - 1 ∧
    downVal src rowA colA = src.data (src.rowCount - 1) colA ∧
    lowerRightVal src rowA colA =
      src.data (src.rowCount - 1) (nextColIdx colA src.colCount) ∧
    nextColIdx col src.colCount < src.colCount ∧
    nextRowIdx rowA src.rowCount < src.rowCount := by
  subst hcol hrowA
  have h1 : nextColIdx (src.colCount - 1) src.colCount = src.colCount - 1 := by
    unfold nextColIdx
    omega
  have h2 : nextRowIdx (src.rowCount - 1) src.rowCount = src.rowCount - 1 := by
    unfold nextRowIdx
    omega
  refine ⟨h1, ?_, ?_, h2, ?_, ?_, ?_, ?_⟩ <;>
    simp [rightVal, lowerRightVal, downVal, h1, h2] <;> omega

/-- Witness for C3 on the concrete 2x2 raster, at the last-column pixel
`(0,1)` and the last-row pixel `(1,0)`. -/
theorem C3_witness :
    nextColIdx 1 src2.colCount = src2.colCount - 1 ∧
    rightVal src2 0 1 = src2.data 0 (src2.colCount - 1) ∧
    lowerRightVal src2 0 1 = src2.data (nextRowIdx 0 src2.rowCount) (src2.colCount - 1) ∧
    nextRowIdx 1 src2.rowCount = src2.rowCount - 1 ∧
    downVal src2 1 0 = src2.data (src2.rowCount - 1) 0 ∧
    lowerRightVal src2 1 0 = src2.data (src2.rowCount - 1) (nextColIdx 0 src2.colCount) ∧
    nextColIdx 1 src2.colCount < src2.colCount ∧
    nextRowIdx 1 src2.rowCount < src2.rowCount :=
  C3_thm src2 0 1 1 0 (by decide) (by decide) (by decide) (by decide)

/-- Claim C8 (confirmed): the output sample at `(row, col)` depends only on
the four input samples at `(row, col)`, `(row, min(col+1, colCount-1))`,
`(min(row+1, rowCount-1), col)` and
`(min(row+1, rowCount-1), min(col+1, colCount-1))`: two rasters of the same
geometry agreeing there produce the same output; in particular the computed
`prevRowIdx`/`prevColIdx` (low-side) positions are never read. -/
theorem C8_thm (src srcB : RasterElement) (row col : Nat)
    (hr : srcB.rowCount = src.rowCount) (hc : srcB.colCount = src.colCount)
    (h1 : srcB.data row col = src.data row col)
    (h2 : srcB.data row (min (col + 1) (src.colCount - 1)) =
      src.data row (min (col + 1) (src.colCount - 1)))
    (h3 : srcB.data (min (row + 1) (src.rowCount - 1)) col =
      src.data (min (row + 1) (src.rowCount - 1)) col)
    (h4 : srcB.data (min (row + 1) (src.rowCount - 1)) (min (col + 1) (src.colCount - 1)) =
      src.data (min (row + 1) (src.rowCount - 1)) (min (col + 1) (src.colCount - 1))) :
    edgeDetection srcB row col = edgeDetection src row col := by
  simp only [edgeDetection, midVal, rightVal, downVal, lowerRightVal,
    nextColIdx, nextRowIdx, hr, hc]
  rw [h1, h2, h3, h4]

/-- Witness for C8: `src2b` differs from `src2` outside the 2x2 grid (and in
name) yet yields the same output sample at `(0,0)`. -/
theorem C8_witness : edgeDetection src2b 0 0 = edgeDetection src2 0 0 :=
  C8_thm src2 src2b 0 0 rfl rfl (by decide) (by decide) (by decide) (by decide)

/-- Claim C10 (confirmed): on a successful run over a non-empty raster the
output sample at the bottom-right corner is `0`: all four clamped reads hit
the corner itself, so both gradients vanish. -/
theorem C10_thm (inp : ExecInput) (src : RasterElement)
    (h : inp.cube = some src) (hres : (execute inp).result = .success)
    (hr : 0 < src.rowCount) (hc : 0 < src.colCount) :
    (execute inp).outData (src.rowCount - 1) (src.colCount - 1) = 0 := by
  obtain ⟨_, _, hcomp, hout, _, _⟩ := execute_success_inv inp src h hres
  rw [hout]
  rw [scanLoop_completed_out src inp.abortFlag inp.destValid src.rowCount 0 inp.initData
    hcomp (src.rowCount - 1) (src.colCount - 1) (by omega) (by omega) (by omega)]
  have h1 : nextColIdx (src.colCount - 1) src.colCount = src.colCount - 1 := by
    unfold nextColIdx
    omega
  have h2 : nextRowIdx (src.rowCount - 1) src.rowCount = src.rowCount - 1 := by
    unfold nextRowIdx
    omega
  simp [edgeDetection, midVal, rightVal, downVal, lowerRightVal, h1, h2,
    truncSqrt, sqrtGo]

/-- Witness for C10 on the concrete 2x2 run. -/
theorem C10_witness :
    (execute input2x2).outData (src2.rowCount - 1) (src2.colCount - 1) = 0 :=
  C10_thm input2x2 src2 rfl (by decide) (by decide) (by decide)

/-- An encoding other than the two complex ones is not flagged as complex. -/
theorem isComplexEncoding_eq_false (e : Encoding)
    (h1 : e ≠ .INT4SCOMPLEX) (h2 : e ≠ .FLT8COMPLEX) :
    isComplexEncoding e = false := by
  cases e <;> first | rfl | exact absurd rfl h1 | exact absurd rfl h2

/-- Claim C4 (confirmed): the run fails with `unsupportedEncoding` — before
any pixel is read or written (empty trace, untouched output storage) —
exactly when the encoding is complex integer or complex float; for any other
encoding the check passes, and absent other failures the scan completes
successfully. -/
theorem C4_thm (inp : ExecInput) (src : RasterElement) (h : inp.cube = some src) :
    ((src.dataType = .INT4SCOMPLEX ∨ src.dataType = .FLT8COMPLEX) →
      (execute inp).result = .unsupportedEncoding ∧
      (execute inp).trace = [] ∧
      ∀ r c, (execute inp).outData r c = inp.initData r c) ∧
    (src.dataType ≠ .INT4SCOMPLEX → src.dataType ≠ .FLT8COMPLEX →
      (execute inp).result ≠ .unsupportedEncoding ∧
      (inp.allocOk = true → (∀ j, inp.abortFlag j = false) →
        (∀ j, inp.destValid j = true) → inp.isBatch = true →
        (execute inp).result = .success)) := by
  constructor
  · intro hcplx
    have hce : isComplexEncoding src.dataType = true := by
      rcases hcplx with h1 | h1 <;> rw [h1] <;> rfl
    refine ⟨?_, ?_, fun r c => ?_⟩ <;> simp [execute, h, hce]
  · intro h1 h2
    have hce := isComplexEncoding_eq_false src.dataType h1 h2
    constructor
    · intro hres
      cases halloc : inp.allocOk with
      | false => simp [execute, h, hce, halloc] at hres
      | true =>
        rcases hs : (scanLoop src inp.abortFlag inp.destValid 0 src.rowCount
            inp.initData).result with k | k | _
        · simp [execute, h, hce, halloc, hs] at hres
        · simp [execute, h, hce, halloc, hs] at hres
        · cases hb : (inp.isBatch || inp.viewOk) <;>
            simp [execute, h, hce, halloc, hs, hb] at hres
    · intro halloc hnab hval hbatch
      have hcomp := scanLoop_all_pass src inp.abortFlag inp.destValid src.rowCount 0
        inp.initData (fun j _ _ => ⟨hnab j, hval j⟩)
      have hb : (inp.isBatch || inp.viewOk) = true := by rw [hbatch]; rfl
      exact (execute_reduce inp src h hce halloc).2.2.2.2 hcomp hb

/-- Witness for C4: the concrete 2x2 run has a supported encoding, so it is
not rejected and completes successfully. -/
theorem C4_witness :
    (execute input2x2).result ≠ ExecResult.unsupportedEncoding ∧
    (execute input2x2).result = ExecResult.success := by
  have h := (C4_thm input2x2 src2 rfl).2 (by decide) (by decide)
  exact ⟨h.1, h.2 rfl (fun j => rfl) (fun j => rfl) rfl⟩

/-- Claim C5 (confirmed): on a successful run the result raster is created
with the input's `rowCount`, `colCount` and encoding, and its name is the
input's name followed by the fixed suffix `"_Edge_Detection_Result"`. -/
theorem C5_thm (inp : ExecInput) (src out : RasterElement)
    (h : inp.cube = some src) (hres : (execute inp).result = .success)
    (hout : (execute inp).resultCube = some out) :
    out.rowCount = src.rowCount ∧ out.colCount = src.colCount ∧
    out.dataType = src.dataType ∧ out.name = src.name ++ resultNameSuffix := by
  obtain ⟨_, _, _, _, hcube, _⟩ := execute_success_inv inp src h hres
  rw [hcube] at hout
  obtain rfl := Option.some.inj hout
  exact ⟨rfl, rfl, rfl, rfl⟩

/-- The result raster of the nominal concrete run. -/
def outCube2 : RasterElement :=
  { name := resultName src2, rowCount := src2.rowCount, colCount := src2.colCount,
    dataType := src2.dataType,
    data := (scanLoop src2 input2x2.abortFlag input2x2.destValid 0 src2.rowCount
      input2x2.initData).out }

/-- Witness for C5 on the concrete 2x2 run. -/
theorem C5_witness :
    outCube2.rowCount = src2.rowCount ∧ outCube2.colCount = src2.colCount ∧
    outCube2.dataType = src2.dataType ∧ outCube2.name = src2.name ++ resultNameSuffix :=
  C5_thm input2x2 src2 outCube2 rfl (by decide) rfl

/-- Claim C6 (confirmed): if every row before `k` passes both per-row checks
and the abort flag is set when row `k` is polled, the run ends as `aborted k`;
no sample in any row at or beyond `k` is written (the storage keeps its
initial contents there), while every row before `k` is fully written —
cancellation is polled once per row, so a started row always completes. -/
theorem C6_thm (inp : ExecInput) (src : RasterElement) (k : Nat)
    (h : inp.cube = some src)
    (hcplx : isComplexEncoding src.dataType = false)
    (halloc : inp.allocOk = true)
    (hk : k < src.rowCount)
    (hpass : ∀ j, j < k → inp.abortFlag j = false ∧ inp.destValid j = true)
    (habort : inp.abortFlag k = true) :
    (execute inp).result = .aborted k ∧
    (∀ r c, k ≤ r → (execute inp).outData r c = inp.initData r c) ∧
    (∀ r c, r < k → c < src.colCount →
      (execute inp).outData r c = edgeDetection src r c) := by
  obtain ⟨htr, hout, habt, _, _⟩ := execute_reduce inp src h hcplx halloc
  obtain ⟨h1, h2, h3⟩ := scanLoop_abort src inp.abortFlag inp.destValid k src.rowCount 0
    inp.initData (fun j _ hj => hpass j hj) (by omega) (by omega) habort
  exact ⟨habt k h1, fun r c hr => by rw [hout]; exact h2 r c hr,
    fun r c hr hc => by rw [hout]; exact h3 r c (by omega) hr hc⟩

/-- Witness for C6: with the abort flag set from row 1 on, the concrete run
aborts at row 1, row 1 keeps its initial contents, and row 0 holds the kernel
output. -/
theorem C6_witness :
    (execute inputAbort).result = ExecResult.aborted 1 ∧
    (execute inputAbort).outData 1 0 = inputAbort.initData 1 0 ∧
    (execute inputAbort).outData 0 1 = edgeDetection src2 0 1 := by
  have h := C6_thm inputAbort src2 1 rfl (by decide) rfl (by decide)
    (fun j hj => by
      have hj0 : j = 0 := by omega
      subst hj0
      exact ⟨rfl, rfl⟩) rfl
  exact ⟨h.1, h.2.1 1 0 (le_refl 1), h.2.2 0 1 (by omega) (by decide)⟩

/-- Claim C7 (amended): at the start of each polled row the steps occur in
this order: first progress is reported as `row * 100 / rowCount`, then the
cancellation flag is checked (if set, the run ends `aborted`), and only then
is the write-cursor validity checked (if invalid, the run ends
`accessorInvalid`). -/
theorem C7_amended (inp : ExecInput) (src : RasterElement) (k : Nat)
    (h : inp.cube = some src)
    (hcplx : isComplexEncoding src.dataType = false)
    (halloc : inp.allocOk = true)
    (hk : k < src.rowCount)
    (hpass : ∀ j, j < k → inp.abortFlag j = false ∧ inp.destValid j = true) :
    (((execute inp).trace).drop (4 * k)).take 2 =
      [.progressReport k (k * 100 / src.rowCount), .abortCheck k (inp.abortFlag k)] ∧
    (inp.abortFlag k = false →
      (((execute inp).trace).drop (4 * k)).take 3 =
        [.progressReport k (k * 100 / src.rowCount), .abortCheck k false,
          .validityCheck k (inp.destValid k)]) ∧
    (inp.abortFlag k = true → (execute inp).result = .aborted k) ∧
    (inp.abortFlag k = false → inp.destValid k = false →
      (execute inp).result = .accessorInvalid k) := by
  obtain ⟨htr, hout, habt, hinv, _⟩ := execute_reduce inp src h hcplx halloc
  obtain ⟨m, hm⟩ : ∃ m, src.rowCount - k = m + 1 := ⟨src.rowCount - k - 1, by omega⟩
  have hdrop := scanLoop_trace_drop src inp.abortFlag inp.destValid k src.rowCount 0
    inp.initData (fun j hj1 hj2 => hpass j (by omega)) (by omega)
  rw [htr, hdrop]
  have e0 : 0 + k = k := by omega
  rw [e0, hm]
  obtain ⟨hh1, hh2⟩ := scanLoop_trace_head src inp.abortFlag inp.destValid k m inp.initData
  refine ⟨hh1, hh2, fun ha => habt k ?_, fun ha hv => hinv k ?_⟩
  · exact (scanLoop_abort src inp.abortFlag inp.destValid k src.rowCount 0 inp.initData
      (fun j _ hj => hpass j hj) (by omega) (by omega) ha).1
  · exact scanLoop_invalid src inp.abortFlag inp.destValid k src.rowCount 0 inp.initData
      (fun j _ hj => hpass j hj) (by omega) (by omega) ha hv

/-- Witness for C7 (amended) at row 0 of the concrete nominal run. -/
theorem C7_amended_witness :
    (((execute input2x2).trace).drop (4 * 0)).take 2 =
      [.progressReport 0 (0 * 100 / src2.rowCount),
        .abortCheck 0 (input2x2.abortFlag 0)] ∧
    (input2x2.abortFlag 0 = false →
      (((execute input2x2).trace).drop (4 * 0)).take 3 =
        [.progressReport 0 (0 * 100 / src2.rowCount), .abortCheck 0 false,
          .validityCheck 0 (input2x2.destValid 0)]) ∧
    (input2x2.abortFlag 0 = true → (execute input2x2).result = .aborted 0) ∧
    (input2x2.abortFlag 0 = false → input2x2.destValid 0 = false →
      (execute input2x2).result = .accessorInvalid 0) :=
  C7_amended input2x2 src2 0 rfl (by decide) rfl (by decide)
    (fun j hj => absurd hj (by omega))

/-- `round(sqrt(1000)) = 32`: the rounded magnitude at the example's pixel
`(0,0)`, to be contrasted with the truncated value 31 the code writes. -/
theorem round_sqrt_1000 : round (Real.sqrt 1000) = 32 := by
  have h1 : (31.5 : ℝ) ≤ Real.sqrt 1000 := by
    have hs : ((31.5 : ℝ)) = Real.sqrt (31.5 ^ 2) := by
      rw [Real.sqrt_sq]
      norm_num
    rw [hs]
    apply Real.sqrt_le_sqrt
    norm_num
  have h2 : Real.sqrt 1000 < 32 := by
    have hs : (32 : ℝ) = Real.sqrt (32 ^ 2) := by
      rw [Real.sqrt_sq]
      norm_num
    rw [hs]
    apply Real.sqrt_lt_sqrt <;> norm_num
  rw [round_eq]
  apply Int.floor_eq_iff.mpr
  constructor <;> push_cast <;> linarith

/-- Claim C1 (counterexample): at the strictly interior pixel `(0,0)` of the
2x2 example raster the written output (31, by truncation) differs from the
claimed `round(sqrt((center-lowerRight)^2 + (right-down)^2))` (32, since
`sqrt(1000) = 31.62...`). -/
theorem C1_counterexample :
    (execute input2x2).outData 0 0 ≠
      round (Real.sqrt (((src2.data 0 0 - src2.data 1 1 : ℤ) : ℝ) ^ 2 +
        ((src2.data 0 1 - src2.data 1 0 : ℤ) : ℝ) ^ 2)) := by
  have h1 : (execute input2x2).outData 0 0 = 31 := by decide
  have h2 : (((src2.data 0 0 - src2.data 1 1 : ℤ) : ℝ) ^ 2 +
      ((src2.data 0 1 - src2.data 1 0 : ℤ) : ℝ) ^ 2) = 1000 := by
    norm_num [src2]
  rw [h1, h2, round_sqrt_1000]
  decide

/-- The kernel output is the floor (truncation) of the real magnitude. -/
theorem edge_magnitude_floor (gx gy : ℤ) :
    (truncSqrt (gx * gx + gy * gy).toNat : ℤ) =
      ⌊Real.sqrt ((gx : ℝ) ^ 2 + (gy : ℝ) ^ 2)⌋ := by
  rw [truncSqrt_eq_floor]
  congr 1
  have hnn : (0 : ℤ) ≤ gx * gx + gy * gy :=
    add_nonneg (mul_self_nonneg gx) (mul_self_nonneg gy)
  have h2 : (((gx * gx + gy * gy).toNat : ℕ) : ℤ) = gx * gx + gy * gy :=
    Int.toNat_of_nonneg hnn
  have h3 : (((gx * gx + gy * gy).toNat : ℕ) : ℝ) = ((gx * gx + gy * gy : ℤ) : ℝ) := by
    exact_mod_cast congrArg (fun z : ℤ => (z : ℝ)) h2
  rw [h3]
  push_cast
  ring_nf

/-- Claim C1 (amended): for every successful run and every strictly interior
pixel, the written output equals the truncation (floor, not rounding) of
`sqrt((center-lowerRight)^2 + (right-down)^2)`, computed from the true
unclamped neighbors. -/
theorem C1_amended (inp : ExecInput) (src : RasterElement) (row col : Nat)
    (h : inp.cube = some src) (hres : (execute inp).result = .success)
    (hrow : row < src.rowCount - 1) (hcol : col < src.colCount - 1) :
    (execute inp).outData row col =
      ⌊Real.sqrt (((src.data row col - src.data (row + 1) (col + 1) : ℤ) : ℝ) ^ 2 +
        ((src.data row (col + 1) - src.data (row + 1) col : ℤ) : ℝ) ^ 2)⌋ := by
  obtain ⟨_, _, hcomp, hout, _, _⟩ := execute_success_inv inp src h hres
  rw [hout]
  rw [scanLoop_completed_out src inp.abortFlag inp.destValid src.rowCount 0 inp.initData
    hcomp row col (by omega) (by omega) (by omega)]
  have h1 : nextColIdx col src.colCount = col + 1 := by
    unfold nextColIdx
    omega
  have h2 : nextRowIdx row src.rowCount = row + 1 := by
    unfold nextRowIdx
    omega
  simp only [edgeDetection, midVal, rightVal, downVal, lowerRightVal, h1, h2]
  exact edge_magnitude_floor _ _

/-- Witness for C1 (amended) at the interior pixel `(0,0)` of the 2x2 run. -/
theorem C1_amended_witness :
    (execute input2x2).outData 0 0 =
      ⌊Real.sqrt (((src2.data 0 0 - src2.data 1 1 : ℤ) : ℝ) ^ 2 +
        ((src2.data 0 1 - src2.data 1 0 : ℤ) : ℝ) ^ 2)⌋ :=
  C1_amended input2x2 src2 0 0 rfl (by decide) (by decide) (by decide)

end Robert
